import Mathlib

/-!
# GPX track comparison — overlap detection core, verified model

A shallow embedding of the overlap-detection logic of `src/app.js`
(`processTrack`, `findAndDrawOverlap`, `displayOverlapStats`).

Conventions of the embedding:
* JavaScript floating-point numbers are modelled as exact rationals (`ℚ`).
* The external Turf.js primitives the source calls (`turf.length`,
  `turf.along`, `turf.pointToLineDistance`) are not code of this repository;
  `turf.length` of a (multi-)linestring is modelled from the spec as the sum
  of consecutive geodesic distances over an abstract geodesic metric `gd`,
  while `turf.along` and `turf.pointToLineDistance` are passed in as function
  parameters (`along`, `p2l`), with spec-derived properties assumed as
  explicit hypotheses where a theorem needs them.
* A Turf position is a `[lng, lat]` pair, modelled as `Coord := ℚ × ℚ`.
-/

namespace GpxCompare

/-- A Turf position `[lng, lat]`, as produced by
`track.points.map(p => [p.lng, p.lat])` (src/app.js:335-336). -/
abbrev Coord : Type := ℚ × ℚ

/-- A processed track point `{lat, lng, ele}` (src/app.js:153-157). -/
structure GeoPoint where
  lat : ℚ
  lng : ℚ
  ele : Option ℚ := none
deriving DecidableEq, Repr

/-- `track.points.map(p => [p.lng, p.lat])`: the linestring coordinates of a
track (src/app.js:335-336). -/
def toLS (pts : List GeoPoint) : List Coord :=
  pts.map (fun p => (p.lng, p.lat))

/-- Modelled from the spec: `turf.length` of a lineString — GeoDistance /
PolylineMetrics.totalLength, the sum of geodesic distances over consecutive
points, over an abstract geodesic metric `gd` (the haversine formula itself
is transcendental and is left as a parameter). -/
def lineLen (gd : Coord → Coord → ℚ) : List Coord → ℚ
  | a :: b :: rest => gd a b + lineLen gd (b :: rest)
  | _ => 0

/-- Modelled from the spec: `turf.length` of a multiLineString — the sum of
the lengths of its parts (src/app.js:400-401 computes the overlap length
this way). -/
def multiLen (gd : Coord → Coord → ℚ) (segs : List (List Coord)) : ℚ :=
  (segs.map (lineLen gd)).sum

/-- `OVERLAP_THRESHOLD_METERS = 20` (src/app.js:18). -/
def OVERLAP_THRESHOLD_METERS : ℚ := 20

/-- `RESAMPLE_STEP_METERS = 10` (src/app.js:19). -/
def RESAMPLE_STEP_METERS : ℚ := 10

/-- `const stepKm = RESAMPLE_STEP_METERS / 1000` (src/app.js:345). -/
def stepKm : ℚ := RESAMPLE_STEP_METERS / 1000

/-- The offsets `d = 0, stepKm, 2*stepKm, …` visited by the sampling loop
`for (let d = 0; d <= shortLenKm; d += stepKm)` (src/app.js:348), in exact
rational arithmetic: the visited offsets are `i * stepKm` for
`i = 0 .. ⌊L / stepKm⌋`.  `offsetsUpTo n` lists `0, stepKm, …, n * stepKm`. -/
def offsetsUpTo : ℕ → List ℚ
  | 0 => [0]
  | n + 1 => offsetsUpTo n ++ [((n + 1 : ℕ) : ℚ) * stepKm]

/-- The full offset list of the sampling loop for a line of length `L` km:
empty when `L < 0` (the loop body never runs), else `0, stepKm, …,
⌊L/stepKm⌋ * stepKm` (src/app.js:348). -/
def sampleOffsets (L : ℚ) : List ℚ :=
  if 0 ≤ L then offsetsUpTo (⌊L / stepKm⌋.toNat) else []

/-- The hysteresis classification loop of src/app.js:361-384: a two-state
machine over the sampled coordinates.  `distF c` is
`turf.pointToLineDistance(pt, longLine, {units:'meters'})` for the sample
`c`; `current` is the open segment and `inside` the state.  On exit
(`distM > exitThresh`) and at end of stream, `current` is emitted only when
`current.length > 1`. -/
def hystLoop (enterThresh exitThresh : ℚ) (distF : α → ℚ) :
    List α → List α → Bool → List (List α)
  | [], current, _ =>
      if 1 < current.length then [current] else []
  | c :: rest, current, inside =>
      let distM := distF c
      if inside = false then
        if distM ≤ enterThresh then
          hystLoop enterThresh exitThresh distF rest (current ++ [c]) true
        else
          hystLoop enterThresh exitThresh distF rest current false
      else
        if distM ≤ exitThresh then
          hystLoop enterThresh exitThresh distF rest (current ++ [c]) true
        else
          (if 1 < current.length then [current] else [])
            ++ hystLoop enterThresh exitThresh distF rest [] false

/-- The observable outcome of one run of `findAndDrawOverlap`
(src/app.js:333-406): the selected probe (`shortLine`) and reference
(`longLine`) linestrings, the guaranteed last coordinate, the resampled
points, the emitted overlap segments, and the overlap length in km that is
passed to `displayOverlapStats` (`none` when no segment was produced and the
stats block is skipped, src/app.js:386). -/
structure OverlapRun where
  shortLine : List Coord
  longLine : List Coord
  lastCoord : Coord
  sampled : List Coord
  segments : List (List Coord)
  overlapKm : Option ℚ
deriving DecidableEq, Repr

/-- The body of `findAndDrawOverlap` after probe/reference selection
(src/app.js:344-405): resample the probe at `stepKm`, force the final
sample to be the probe's literal last coordinate, classify each sample by
its distance to the reference with hysteresis thresholds
`OVERLAP_THRESHOLD_METERS` / `OVERLAP_THRESHOLD_METERS + 5`
(src/app.js:358-359), and total the emitted segments. -/
def overlapCore (gd : Coord → Coord → ℚ) (along : List Coord → ℚ → Coord)
    (p2l : Coord → List Coord → ℚ) (shortLine longLine : List Coord) :
    OverlapRun :=
  let shortLenKm := lineLen gd shortLine
  let sampled0 := (sampleOffsets shortLenKm).map (along shortLine)
  let lastCoord := shortLine.getLastD (0, 0)
  let sampled :=
    if sampled0 = [] ∨ sampled0.getLast? ≠ some lastCoord then
      sampled0 ++ [lastCoord]
    else sampled0
  let segments :=
    hystLoop OVERLAP_THRESHOLD_METERS (OVERLAP_THRESHOLD_METERS + 5)
      (fun c => p2l c longLine) sampled [] false
  { shortLine := shortLine
    longLine := longLine
    lastCoord := lastCoord
    sampled := sampled
    segments := segments
    overlapKm := if segments = [] then none else some (multiLen gd segments) }

/-- `findAndDrawOverlap(track1, track2)` (src/app.js:333-406): build the two
linestrings, compare lengths, select `shortLine = len1 <= len2 ? ls1 : ls2`
and `longLine` the other (src/app.js:341-342), then run the overlap body. -/
def findAndDrawOverlap (gd : Coord → Coord → ℚ)
    (along : List Coord → ℚ → Coord) (p2l : Coord → List Coord → ℚ)
    (track1 track2 : List GeoPoint) : OverlapRun :=
  let ls1 := toLS track1
  let ls2 := toLS track2
  let len1 := lineLen gd ls1
  let len2 := lineLen gd ls2
  overlapCore gd along p2l (if len1 ≤ len2 then ls1 else ls2)
    (if len1 ≤ len2 then ls2 else ls1)

/-- A point of a parsed GPX track, `{lat, lon, ele}` as delivered by the
external gpxParser library (src/app.js:153-157; `ele` may be absent). -/
structure GpxPoint where
  lat : ℚ
  lon : ℚ
  ele : Option ℚ := none
deriving DecidableEq, Repr

/-- A parsed GPX track `gpx.tracks[0]` as consumed by `processTrack`
(src/app.js:150-175): an optional name, the point list (empty when
`points` is missing), and the optional `distance.total` field. -/
structure GpxTrack where
  name : Option String := none
  points : List GpxPoint
  distTotal : Option ℚ := none
deriving DecidableEq, Repr

/-- An entry of `tracksData` as built by `processTrack`
(src/app.js:177-183); the `color` field is presentation only and omitted. -/
structure TrackData where
  name : String
  points : List GeoPoint
  chartData : List (ℚ × ℚ)
  totalDistance : ℚ
deriving DecidableEq, Repr

/-- The cumulative-distance loop of src/app.js:160-163: the sum of
`gpx.calcDistanceBetween(rawPoints[i-1], rawPoints[i])` over consecutive raw
points (`cd` stands for the external `calcDistanceBetween`). -/
def cumulativeDistance (cd : GeoPoint → GeoPoint → ℚ) : List GeoPoint → ℚ
  | a :: b :: rest => cd a b + cumulativeDistance cd (b :: rest)
  | _ => 0

/-- The chart-data loop of src/app.js:166-173: walk the raw points
accumulating `chartDist` and emit `{x: chartDist/1000, y: ele}` for each
point whose elevation is present (a present rational elevation is always
finite). -/
def chartDataLoop (cd : GeoPoint → GeoPoint → ℚ) :
    ℚ → List GeoPoint → List (ℚ × ℚ)
  | _, [] => []
  | chartDist, p :: rest =>
      (match p.ele with
        | some e => [(chartDist / 1000, e)]
        | none => []) ++
        (match rest with
          | [] => []
          | q :: _ => chartDataLoop cd (chartDist + cd p q) rest)

/-- `processTrack(gpx, trackIndex)` (src/app.js:149-184): throws
`'Empty GPX track'` when `gpx.tracks[0]` is missing or its point list is
empty (`!tr || !tr.points?.length`, src/app.js:151); otherwise builds the
raw points, the total distance (preferring `tr.distance.total`) and the
chart data.  The external `gpx.calcDistanceBetween` is the parameter `cd`. -/
def processTrack (cd : GeoPoint → GeoPoint → ℚ) (tr? : Option GpxTrack)
    (trackIndex : ℕ) : Except String TrackData :=
  match tr? with
  | none => Except.error "Empty GPX track"
  | some tr =>
      if tr.points = [] then Except.error "Empty GPX track"
      else
        let rawPoints := tr.points.map
          (fun p => { lat := p.lat, lng := p.lon, ele := p.ele : GeoPoint })
        let cumulative := cumulativeDistance cd rawPoints
        let chartData := chartDataLoop cd 0 rawPoints
        let totalDistanceMeters := tr.distTotal.getD cumulative
        Except.ok
          { name := tr.name.getD ("Rota " ++ toString (trackIndex + 1))
            points := rawPoints
            chartData := chartData
            totalDistance := totalDistanceMeters / 1000 }

/-- `displayOverlapStats(overlapKm, track1, track2)` (src/app.js:297-312):
the two reported per-track unique distances, in km, before display
formatting — `Math.max(0, track.totalDistance - overlapKm)` for each track
(src/app.js:303-304). -/
def displayOverlapStats (overlapKm : ℚ) (track1 track2 : TrackData) :
    ℚ × ℚ :=
  (max 0 (track1.totalDistance - overlapKm),
    max 0 (track2.totalDistance - overlapKm))

/-- Projection: `overlapCore` reports the probe line it was given. -/
theorem overlapCore_shortLine (gd : Coord → Coord → ℚ)
    (along : List Coord → ℚ → Coord) (p2l : Coord → List Coord → ℚ)
    (s l : List Coord) : (overlapCore gd along p2l s l).shortLine = s := rfl

/-- Projection: `overlapCore` reports the reference line it was given. -/
theorem overlapCore_longLine (gd : Coord → Coord → ℚ)
    (along : List Coord → ℚ → Coord) (p2l : Coord → List Coord → ℚ)
    (s l : List Coord) : (overlapCore gd along p2l s l).longLine = l := rfl

/-- The resampled point list always ends in the probe's literal last
coordinate: the source appends `lastCoord` whenever the sampling loop did
not already end there (src/app.js:351-355). -/
theorem overlapCore_sampled_last (gd : Coord → Coord → ℚ)
    (along : List Coord → ℚ → Coord) (p2l : Coord → List Coord → ℚ)
    (s l : List Coord) :
    (overlapCore gd along p2l s l).sampled ≠ [] ∧
      (overlapCore gd along p2l s l).sampled.getLast?
        = some (overlapCore gd along p2l s l).lastCoord := by
  unfold overlapCore
  dsimp only
  split
  · exact ⟨by simp, List.getLast?_concat _⟩
  · next h =>
      push_neg at h
      exact ⟨h.1, h.2⟩

section WitnessFixtures

/-- A concrete geodesic-metric stand-in used by witnesses and
counterexamples: the taxicab (L1) planar metric, which agrees with the
Euclidean metric on the axis-aligned point pairs all concrete fixtures
use. -/
def gdAxis (a b : Coord) : ℚ :=
  (if a.1 ≤ b.1 then b.1 - a.1 else a.1 - b.1) +
    (if a.2 ≤ b.2 then b.2 - a.2 else a.2 - b.2)

/-- A concrete arc-length stand-in for `turf.along` used by witnesses:
walk `d` km along the horizontal axis from the line's first coordinate. -/
def alongX (line : List Coord) (d : ℚ) : Coord :=
  ((line.headD (0, 0)).1 + d, 0)

/-- A point-to-line distance stand-in with every sample on the reference
(`0` meters everywhere). -/
def p2lZero (_ : Coord) (_ : List Coord) : ℚ := 0

/-- A point-to-line distance stand-in with every sample far from the
reference (`1000` meters everywhere, beyond both thresholds). -/
def p2lFar (_ : Coord) (_ : List Coord) : ℚ := 1000

/-- Witness track of length 0.02 km along the equator. -/
def wShort : List GeoPoint := [{ lat := 0, lng := 0 }, { lat := 0, lng := 2/100 }]

/-- Witness track of length 0.05 km along the equator. -/
def wLong : List GeoPoint := [{ lat := 0, lng := 0 }, { lat := 0, lng := 5/100 }]

/-- Witness track of length 0.02 km at latitude 0.01 — same length as
`wShort` but a different point sequence. -/
def wShortTie : List GeoPoint :=
  [{ lat := 1/100, lng := 0 }, { lat := 1/100, lng := 2/100 }]

/-- Witness track of length 0.097 km (97 m), the endpoint-coverage example
of the spec. -/
def w97 : List GeoPoint := [{ lat := 0, lng := 0 }, { lat := 0, lng := 97/1000 }]

/-- Witness track of length 0.2 km, a reference longer than `w97`. -/
def w200 : List GeoPoint := [{ lat := 0, lng := 0 }, { lat := 0, lng := 2/10 }]

/-- Linear interpolation between two coordinates. -/
def lerp (p q : Coord) (t : ℚ) : Coord :=
  (p.1 + t * (q.1 - p.1), p.2 + t * (q.2 - p.2))

/-- Modelled from the spec: `turf.along` — PolylineMetrics.pointAtDistance.
Walks the polyline's segments accumulating geodesic length and linearly
interpolates inside the bracketing segment; `d ≤ 0` returns the first
point, `d` beyond the total length returns the last point, and a
zero-length segment ("NumericDegeneracy") yields its shared point. -/
def pointAtDistance (gd : Coord → Coord → ℚ) : List Coord → ℚ → Coord
  | [], _ => (0, 0)
  | [p], _ => p
  | p :: q :: rest, d =>
      if d ≤ 0 then p
      else
        let seg := gd p q
        if d ≤ seg then (if seg = 0 then p else lerp p q (d / seg))
        else pointAtDistance gd (q :: rest) (d - seg)

/-- Distance from `x` to the closed interval with endpoints `a` and `b`. -/
def distToInterval (x a b : ℚ) : ℚ :=
  if x < min a b then min a b - x
  else if max a b < x then x - max a b
  else 0

/-- Distance (km) from a point to the bounding box of a segment; for the
axis-aligned segments of the concrete fixtures this is exactly the planar
point-to-segment distance. -/
def segBoxDist (p a b : Coord) : ℚ :=
  distToInterval p.1 a.1 b.1 + distToInterval p.2 a.2 b.2

/-- Minimum of `segBoxDist` over the polyline's segments (km); a polyline
with fewer than two coordinates has no segment (Turf would reject it), so a
large sentinel distance is returned. -/
def minSegDist (p : Coord) : List Coord → ℚ
  | a :: b :: rest => min (segBoxDist p a b) (minSegDist p (b :: rest))
  | _ => 1000000000

/-- Modelled from the spec: `turf.pointToLineDistance(pt, line,
{units:'meters'})` — the minimum over the line's segments of the distance
from the point to that finite segment, in meters (the fixtures' coordinates
are in km, hence the factor 1000); exact for axis-aligned queries. -/
def p2lRef (p : Coord) (line : List Coord) : ℚ := 1000 * minSegDist p line

/-- Counterexample track A: straight 0.05 km line along the horizontal
axis. -/
def cexA : List GeoPoint := [{ lat := 0, lng := 0 }, { lat := 0, lng := 5/100 }]

/-- Counterexample track B: 0.01 km along the axis shared with `cexA`,
then a 0.02 km perpendicular excursion and its 0.02 km return — total
length 0.05 km, exactly equal to `cexA`'s. -/
def cexB : List GeoPoint :=
  [{ lat := 0, lng := 0 }, { lat := 0, lng := 1/100 },
    { lat := 2/100, lng := 1/100 }, { lat := 0, lng := 1/100 }]

end WitnessFixtures

end GpxCompare

namespace GpxCompare

/-- C1: the hysteresis classifier with enter = 20 m and exit = 25 m, run from
OUTSIDE, keeps `[5, 5, 22, 5, 5]` as one segment of all five samples (the
excursion to 22 stays below the exit threshold), and splits
`[5, 5, 30, 5, 5]` into two segments of two samples each. -/
theorem hysteresis_concrete_sequences :
    hystLoop 20 25 (id : ℚ → ℚ) [5, 5, 22, 5, 5] [] false
        = [[5, 5, 22, 5, 5]] ∧
      hystLoop 20 25 (id : ℚ → ℚ) [5, 5, 30, 5, 5] [] false
        = [[5, 5], [5, 5]] := by
  constructor <;> rfl

/-- C4 counterexample: a track with exactly one point — fewer than 2 points —
is accepted by `processTrack` (its guard only rejects an empty point list),
so construction does not fail with an error for every sub-2-point track. -/
theorem processTrack_accepts_single_point :
    (processTrack (fun _ _ => 0)
        (some { points := [{ lat := 1, lon := 2 }] }) 0).isOk = true := by
  rfl

/-- C4 amended: `processTrack` fails (with the `'Empty GPX track'` error)
exactly when the parsed track is missing or its point sequence is empty;
every track with at least one point — including single-point tracks — is
accepted, i.e. there is no fewer-than-2-points validation. -/
theorem processTrack_ok_iff_points_nonempty
    (cd : GeoPoint → GeoPoint → ℚ) (tr? : Option GpxTrack) (idx : ℕ) :
    (processTrack cd tr? idx).isOk
      = (match tr? with
          | none => false
          | some tr => !tr.points.isEmpty) := by
  match tr? with
  | none => rfl
  | some tr =>
      match h : tr.points with
      | [] => simp [processTrack, h, Except.isOk, Except.toBool]
      | p :: rest => simp [processTrack, h, Except.isOk, Except.toBool]

/-- C8: each reported unique distance is `max(0, track.totalDistance −
overlapKm)` and is never negative, even when the floating overlap length
exceeds a track's length. -/
theorem displayOverlapStats_nonneg (overlapKm : ℚ) (t1 t2 : TrackData) :
    displayOverlapStats overlapKm t1 t2
        = (max 0 (t1.totalDistance - overlapKm),
            max 0 (t2.totalDistance - overlapKm)) ∧
      0 ≤ (displayOverlapStats overlapKm t1 t2).1 ∧
      0 ≤ (displayOverlapStats overlapKm t1 t2).2 :=
  ⟨rfl, le_max_left 0 _, le_max_left 0 _⟩

/-- C7: when the first track is strictly shorter, it is selected as the
probe (the resampled, distance-queried line) and the second as the
reference; by instantiating the theorem with the tracks swapped this covers
every pair with distinct lengths, i.e. the shorter track is always the
probe (`len1 <= len2 ? ls1 : ls2`, src/app.js:341-342). -/
theorem probe_is_shorter (gd : Coord → Coord → ℚ)
    (along : List Coord → ℚ → Coord) (p2l : Coord → List Coord → ℚ)
    (t1 t2 : List GeoPoint)
    (h : lineLen gd (toLS t1) < lineLen gd (toLS t2)) :
    (findAndDrawOverlap gd along p2l t1 t2).shortLine = toLS t1 ∧
      (findAndDrawOverlap gd along p2l t1 t2).longLine = toLS t2 := by
  simp only [findAndDrawOverlap]
  rw [if_pos (le_of_lt h), if_pos (le_of_lt h)]
  exact ⟨overlapCore_shortLine .., overlapCore_longLine ..⟩

/-- C7 witness: with the 0.02 km track and the 0.05 km track, the shorter
one is the probe. -/
theorem probe_is_shorter_witness :
    lineLen gdAxis (toLS wShort) < lineLen gdAxis (toLS wLong) ∧
      ((findAndDrawOverlap gdAxis alongX p2lZero wShort wLong).shortLine
          = toLS wShort ∧
        (findAndDrawOverlap gdAxis alongX p2lZero wShort wLong).longLine
          = toLS wLong) :=
  ⟨by norm_num [lineLen, gdAxis, toLS, wShort, wLong],
    probe_is_shorter gdAxis alongX p2lZero wShort wLong
      (by norm_num [lineLen, gdAxis, toLS, wShort, wLong])⟩

/-- C10: when the two tracks have exactly equal total length, the
first-passed track is the probe and the second the reference, because the
selection `len1 <= len2 ? ls1 : ls2` (src/app.js:341-342) is non-strict. -/
theorem tie_break_first_is_probe (gd : Coord → Coord → ℚ)
    (along : List Coord → ℚ → Coord) (p2l : Coord → List Coord → ℚ)
    (t1 t2 : List GeoPoint)
    (h : lineLen gd (toLS t1) = lineLen gd (toLS t2)) :
    (findAndDrawOverlap gd along p2l t1 t2).shortLine = toLS t1 ∧
      (findAndDrawOverlap gd along p2l t1 t2).longLine = toLS t2 := by
  simp only [findAndDrawOverlap]
  rw [if_pos (le_of_eq h), if_pos (le_of_eq h)]
  exact ⟨overlapCore_shortLine .., overlapCore_longLine ..⟩

/-- C10 witness: two distinct tracks of identical length 0.02 km — the
first-passed one is resampled. -/
theorem tie_break_first_is_probe_witness :
    lineLen gdAxis (toLS wShort) = lineLen gdAxis (toLS wShortTie) ∧
      toLS wShort ≠ toLS wShortTie ∧
      ((findAndDrawOverlap gdAxis alongX p2lZero wShort wShortTie).shortLine
          = toLS wShort ∧
        (findAndDrawOverlap gdAxis alongX p2lZero wShort wShortTie).longLine
          = toLS wShortTie) :=
  ⟨by norm_num [lineLen, gdAxis, toLS, wShort, wShortTie],
    by norm_num [toLS, wShort, wShortTie],
    tie_break_first_is_probe gdAxis alongX p2lZero wShort wShortTie
      (by norm_num [lineLen, gdAxis, toLS, wShort, wShortTie])⟩

/-- C5: the resampled sequence always ends exactly at the probe track's
last point — appended explicitly when the stepped offsets fall short —
and, concretely, a 97 m track sampled at 10 m steps has stepped offsets
only up to 90 m, with the final sample placed exactly at the last point
(97 m). -/
theorem resample_final_sample :
    (∀ (gd : Coord → Coord → ℚ) (along : List Coord → ℚ → Coord)
        (p2l : Coord → List Coord → ℚ) (t1 t2 : List GeoPoint),
        (findAndDrawOverlap gd along p2l t1 t2).sampled ≠ [] ∧
          (findAndDrawOverlap gd along p2l t1 t2).sampled.getLast?
            = some (findAndDrawOverlap gd along p2l t1 t2).lastCoord) ∧
      sampleOffsets (97/1000)
        = [0, 1/100, 2/100, 3/100, 4/100, 5/100, 6/100, 7/100, 8/100,
            9/100] ∧
      (findAndDrawOverlap gdAxis alongX p2lZero w97 w200).sampled
        = [(0, 0), (1/100, 0), (2/100, 0), (3/100, 0), (4/100, 0),
            (5/100, 0), (6/100, 0), (7/100, 0), (8/100, 0), (9/100, 0),
            (97/1000, 0)] := by
  refine ⟨fun gd along p2l t1 t2 => ?_,
    by norm_num [sampleOffsets, stepKm, RESAMPLE_STEP_METERS,
      Int.toNat_ofNat, offsetsUpTo],
    by norm_num [findAndDrawOverlap, overlapCore, toLS, w97, w200, lineLen,
      gdAxis, alongX, sampleOffsets, stepKm, RESAMPLE_STEP_METERS,
      Int.toNat_ofNat, offsetsUpTo, List.getLast?]⟩
  unfold findAndDrawOverlap
  exact overlapCore_sampled_last ..

/-- C2 counterexample: two tracks of exactly equal total length (0.05 km)
for which `findAndDrawOverlap(A, B)` reports an overlap of 0.03 km while
`findAndDrawOverlap(B, A)` reports 0.05 km — far beyond a 1e-6 relative
tolerance — because at an exact length tie the selection `len1 <= len2`
picks the first argument as probe, so the result does depend on argument
order. -/
theorem compare_tie_order_dependent :
    lineLen gdAxis (toLS cexA) = lineLen gdAxis (toLS cexB) ∧
      (findAndDrawOverlap gdAxis (pointAtDistance gdAxis) p2lRef
          cexA cexB).overlapKm = some (3/100) ∧
      (findAndDrawOverlap gdAxis (pointAtDistance gdAxis) p2lRef
          cexB cexA).overlapKm = some (5/100) ∧
      ¬((5 : ℚ)/100 - 3/100 ≤ (1 : ℚ)/1000000 * (5/100)) := by
  refine ⟨by norm_num [lineLen, gdAxis, toLS, cexA, cexB], ?_, ?_, by norm_num⟩ <;>
    norm_num [findAndDrawOverlap, overlapCore, toLS, cexA, cexB, lineLen,
      gdAxis, pointAtDistance, lerp, sampleOffsets, stepKm,
      RESAMPLE_STEP_METERS, Int.toNat_ofNat, offsetsUpTo, List.getLast?,
      hystLoop, OVERLAP_THRESHOLD_METERS, multiLen, p2lRef, minSegDist,
      segBoxDist, distToInterval, min_def, max_def]

/-- C2 amended: whenever the two tracks' total lengths differ,
`findAndDrawOverlap(A, B)` and `findAndDrawOverlap(B, A)` produce the very
same run — identical probe/reference selection, identical segments and
identical overlap length (so in particular equal within any tolerance);
only an exact length tie breaks the symmetry, where selection falls back to
argument order. -/
theorem compare_comm_of_ne_length (gd : Coord → Coord → ℚ)
    (along : List Coord → ℚ → Coord) (p2l : Coord → List Coord → ℚ)
    (t1 t2 : List GeoPoint)
    (h : lineLen gd (toLS t1) ≠ lineLen gd (toLS t2)) :
    findAndDrawOverlap gd along p2l t1 t2
      = findAndDrawOverlap gd along p2l t2 t1 := by
  simp only [findAndDrawOverlap]
  rcases lt_or_gt_of_ne h with hlt | hgt
  · rw [if_pos hlt.le, if_pos hlt.le, if_neg (not_le.mpr hlt),
      if_neg (not_le.mpr hlt)]
  · rw [if_neg (not_le.mpr hgt), if_neg (not_le.mpr hgt), if_pos hgt.le,
      if_pos hgt.le]

/-- C2 amended witness: for the 0.02 km and 0.05 km tracks the two argument
orders give identical results. -/
theorem compare_comm_of_ne_length_witness :
    lineLen gdAxis (toLS wShort) ≠ lineLen gdAxis (toLS wLong) ∧
      findAndDrawOverlap gdAxis alongX p2lZero wShort wLong
        = findAndDrawOverlap gdAxis alongX p2lZero wLong wShort :=
  ⟨by norm_num [lineLen, gdAxis, toLS, wShort, wLong],
    compare_comm_of_ne_length gdAxis alongX p2lZero wShort wLong
      (by norm_num [lineLen, gdAxis, toLS, wShort, wLong])⟩

/-- With a nonnegative metric, every polyline length is nonnegative. -/
theorem lineLen_nonneg (gd : Coord → Coord → ℚ) (hnn : ∀ a b, 0 ≤ gd a b) :
    ∀ l : List Coord, 0 ≤ lineLen gd l := by
  intro l
  induction l with
  | nil => exact le_refl 0
  | cons a t ih =>
      cases t with
      | nil => exact le_refl 0
      | cons b r =>
          show 0 ≤ gd a b + lineLen gd (b :: r)
          exact add_nonneg (hnn a b) ih

/-- With a nonnegative metric, dropping the head of a polyline cannot
increase its length. -/
theorem lineLen_cons_le (gd : Coord → Coord → ℚ) (hnn : ∀ a b, 0 ≤ gd a b)
    (a : Coord) (l : List Coord) : lineLen gd l ≤ lineLen gd (a :: l) := by
  cases l with
  | nil => exact le_refl 0
  | cons b r =>
      show lineLen gd (b :: r) ≤ gd a b + lineLen gd (b :: r)
      exact le_add_of_nonneg_left (hnn a b)

/-- With a nonnegative metric, concatenating polylines only adds length
(the joining gap is nonnegative). -/
theorem lineLen_append_ge (gd : Coord → Coord → ℚ)
    (hnn : ∀ a b, 0 ≤ gd a b) :
    ∀ xs ys : List Coord,
      lineLen gd xs + lineLen gd ys ≤ lineLen gd (xs ++ ys) := by
  intro xs
  induction xs with
  | nil => intro ys; simp [lineLen]
  | cons a t ih =>
      intro ys
      cases t with
      | nil =>
          have h := lineLen_cons_le gd hnn a ys
          show lineLen gd [a] + lineLen gd ys ≤ lineLen gd (a :: ys)
          show 0 + lineLen gd ys ≤ lineLen gd (a :: ys)
          rw [zero_add]
          exact h
      | cons b r =>
          have h1 := ih ys
          show gd a b + lineLen gd (b :: r) + lineLen gd ys
              ≤ gd a b + lineLen gd ((b :: r) ++ ys)
          linarith

/-- `multiLen` distributes over list concatenation. -/
theorem multiLen_append (gd : Coord → Coord → ℚ)
    (xs ys : List (List Coord)) :
    multiLen gd (xs ++ ys) = multiLen gd xs + multiLen gd ys := by
  simp [multiLen]

/-- The gap closed by appending one more coordinate to a polyline. -/
def lastGap (gd : Coord → Coord → ℚ) (xs : List Coord) (c : Coord) : ℚ :=
  match xs.getLast? with
  | none => 0
  | some a => gd a c

/-- Appending one coordinate adds exactly the gap from the old last
coordinate. -/
theorem lineLen_concat (gd : Coord → Coord → ℚ) :
    ∀ (xs : List Coord) (c : Coord),
      lineLen gd (xs ++ [c]) = lineLen gd xs + lastGap gd xs c := by
  intro xs
  induction xs with
  | nil => intro c; simp [lineLen, lastGap]
  | cons a t ih =>
      intro c
      cases t with
      | nil => simp [lineLen, lastGap]
      | cons b r =>
          have hgap : lastGap gd (a :: b :: r) c = lastGap gd (b :: r) c := by
            unfold lastGap
            rw [List.getLast?_cons_cons]
          show gd a b + lineLen gd ((b :: r) ++ [c])
              = gd a b + lineLen gd (b :: r) + lastGap gd (a :: b :: r) c
          rw [ih c, hgap, add_assoc]

/-- The total length of the segments the classification loop emits is
bounded by the length of the polyline made of the open segment followed by
the remaining samples: each emitted segment is a contiguous run of the
input, so its internal gaps are pairwise distinct gaps of the input
polyline.  The invariant `inside = false → current = []` holds on entry
(the loop starts OUTSIDE with an empty segment) and is maintained. -/
theorem hystLoop_multiLen_le (gd : Coord → Coord → ℚ)
    (hnn : ∀ a b, 0 ≤ gd a b) (enterThresh exitThresh : ℚ)
    (distF : Coord → ℚ) :
    ∀ (xs current : List Coord) (inside : Bool),
      (inside = false → current = []) →
      multiLen gd (hystLoop enterThresh exitThresh distF xs current inside)
        ≤ lineLen gd (current ++ xs) := by
  intro xs
  induction xs with
  | nil =>
      intro current inside hinv
      simp only [hystLoop, List.append_nil]
      split
      · simp [multiLen]
      · simpa [multiLen] using lineLen_nonneg gd hnn current
  | cons c rest ih =>
      intro current inside hinv
      cases inside with
      | false =>
          have hcur : current = [] := hinv rfl
          subst hcur
          simp only [hystLoop, List.nil_append, if_true]
          split
          · have h := ih [c] true (fun hb => absurd hb (by simp))
            simpa using h
          · have h := ih [] false (fun _ => rfl)
            simp only [List.nil_append] at h
            exact h.trans (lineLen_cons_le gd hnn c rest)
      | true =>
          simp only [hystLoop]
          rw [if_neg (by simp)]
          split
          · have h := ih (current ++ [c]) true (fun hb => absurd hb (by simp))
            rw [List.append_assoc, List.singleton_append] at h
            exact h
          · rw [multiLen_append]
            have hr := ih [] false (fun _ => rfl)
            simp only [List.nil_append] at hr
            have h2 : lineLen gd current + lineLen gd (c :: rest)
                ≤ lineLen gd (current ++ c :: rest) :=
              lineLen_append_ge gd hnn current (c :: rest)
            have h3 : lineLen gd rest ≤ lineLen gd (c :: rest) :=
              lineLen_cons_le gd hnn c rest
            split
            · have hm : multiLen gd [current] = lineLen gd current := by
                simp [multiLen]
              rw [hm]
              linarith
            · have hm : multiLen gd ([] : List (List Coord)) = 0 := rfl
              rw [hm]
              have h0 := lineLen_nonneg gd hnn current
              linarith

/-- The last element of the mapped offset list is the image of the largest
stepped offset. -/
theorem offsetsUpTo_map_getLast (f : ℚ → Coord) :
    ∀ n : ℕ, ((offsetsUpTo n).map f).getLast? = some (f ((n : ℚ) * stepKm)) := by
  intro n
  induction n with
  | zero => simp [offsetsUpTo]
  | succ m _ => simp [offsetsUpTo, List.getLast?_concat]

/-- Telescoping bound: when consecutive images of `along1` are no farther
apart than their offset difference, the polyline through the stepped
samples is no longer than the last stepped offset. -/
theorem lineLen_map_offsetsUpTo_le (gd : Coord → Coord → ℚ)
    (along1 : ℚ → Coord)
    (hlip : ∀ d1 d2 : ℚ, 0 ≤ d1 → d1 ≤ d2 →
      gd (along1 d1) (along1 d2) ≤ d2 - d1) :
    ∀ n : ℕ, lineLen gd ((offsetsUpTo n).map along1) ≤ (n : ℚ) * stepKm := by
  have hs : (0 : ℚ) ≤ stepKm := by
    norm_num [stepKm, RESAMPLE_STEP_METERS]
  intro n
  induction n with
  | zero => simp [offsetsUpTo, lineLen]
  | succ m ih =>
      rw [offsetsUpTo, List.map_append, List.map_singleton, lineLen_concat]
      have hgap : lastGap gd ((offsetsUpTo m).map along1)
          (along1 (((m + 1 : ℕ) : ℚ) * stepKm))
          = gd (along1 ((m : ℚ) * stepKm))
              (along1 (((m + 1 : ℕ) : ℚ) * stepKm)) := by
        unfold lastGap
        rw [offsetsUpTo_map_getLast]
      rw [hgap]
      have hstep : gd (along1 ((m : ℚ) * stepKm))
          (along1 (((m + 1 : ℕ) : ℚ) * stepKm))
          ≤ ((m + 1 : ℕ) : ℚ) * stepKm - (m : ℚ) * stepKm := by
        apply hlip
        · exact mul_nonneg (Nat.cast_nonneg m) hs
        · apply mul_le_mul_of_nonneg_right _ hs
          push_cast
          linarith
      push_cast at ih hstep ⊢
      linarith

/-- Core bound: whatever value `overlapCore` reports as the overlap length
is at most the probe line's total length, provided the geodesic oracle is
nonnegative, `along` is 1-Lipschitz in arc length on the probe (a point
`d2 - d1` further along is at most `d2 - d1` away, the defining property of
arc-length parametrisation), and `along` at the full length is the probe's
last point (the spec's closing case of `pointAtDistance`). -/
theorem overlapCore_overlap_le (gd : Coord → Coord → ℚ)
    (along : List Coord → ℚ → Coord) (p2l : Coord → List Coord → ℚ)
    (shortL longL : List Coord)
    (hnn : ∀ a b, 0 ≤ gd a b)
    (hlip : ∀ d1 d2 : ℚ, 0 ≤ d1 → d1 ≤ d2 →
      gd (along shortL d1) (along shortL d2) ≤ d2 - d1)
    (hlast : along shortL (lineLen gd shortL) = shortL.getLastD (0, 0)) :
    ∀ v, (overlapCore gd along p2l shortL longL).overlapKm = some v →
      v ≤ lineLen gd shortL := by
  intro v hv
  have hs : (0 : ℚ) < stepKm := by norm_num [stepKm, RESAMPLE_STEP_METERS]
  have hL0 : 0 ≤ lineLen gd shortL := lineLen_nonneg gd hnn shortL
  have h2 : (0 : ℤ) ≤ ⌊lineLen gd shortL / stepKm⌋ :=
    Int.floor_nonneg.mpr (div_nonneg hL0 hs.le)
  have hks : ((⌊lineLen gd shortL / stepKm⌋.toNat : ℕ) : ℚ) * stepKm
      ≤ lineLen gd shortL := by
    have h5 : ((⌊lineLen gd shortL / stepKm⌋.toNat : ℕ) : ℚ)
        = ((⌊lineLen gd shortL / stepKm⌋ : ℤ) : ℚ) := by
      exact_mod_cast Int.toNat_of_nonneg h2
    have h3 : ((⌊lineLen gd shortL / stepKm⌋.toNat : ℕ) : ℚ)
        ≤ lineLen gd shortL / stepKm := by
      rw [h5]
      exact Int.floor_le _
    calc ((⌊lineLen gd shortL / stepKm⌋.toNat : ℕ) : ℚ) * stepKm
        ≤ lineLen gd shortL / stepKm * stepKm :=
          mul_le_mul_of_nonneg_right h3 hs.le
      _ = lineLen gd shortL := div_mul_cancel₀ _ (ne_of_gt hs)
  have hmap : lineLen gd
      ((sampleOffsets (lineLen gd shortL)).map (along shortL))
      ≤ ((⌊lineLen gd shortL / stepKm⌋.toNat : ℕ) : ℚ) * stepKm := by
    rw [sampleOffsets, if_pos hL0]
    exact lineLen_map_offsetsUpTo_le gd (along shortL) hlip _
  have hsam : lineLen gd ((overlapCore gd along p2l shortL longL).sampled)
      ≤ lineLen gd shortL := by
    have hrepr : (overlapCore gd along p2l shortL longL).sampled
        = if ((sampleOffsets (lineLen gd shortL)).map (along shortL)) = []
              ∨ ((sampleOffsets (lineLen gd shortL)).map
                  (along shortL)).getLast? ≠ some (shortL.getLastD (0, 0))
          then ((sampleOffsets (lineLen gd shortL)).map (along shortL))
            ++ [shortL.getLastD (0, 0)]
          else ((sampleOffsets (lineLen gd shortL)).map (along shortL)) :=
      rfl
    rw [hrepr]
    split
    · rw [lineLen_concat]
      have hgl : lastGap gd
          ((sampleOffsets (lineLen gd shortL)).map (along shortL))
          (shortL.getLastD (0, 0))
          = gd (along shortL
              (((⌊lineLen gd shortL / stepKm⌋.toNat : ℕ) : ℚ) * stepKm))
            (shortL.getLastD (0, 0)) := by
        unfold lastGap
        rw [sampleOffsets, if_pos hL0, offsetsUpTo_map_getLast]
      rw [hgl, ← hlast]
      have hgap : gd (along shortL
          (((⌊lineLen gd shortL / stepKm⌋.toNat : ℕ) : ℚ) * stepKm))
          (along shortL (lineLen gd shortL))
          ≤ lineLen gd shortL
            - ((⌊lineLen gd shortL / stepKm⌋.toNat : ℕ) : ℚ) * stepKm :=
        hlip _ _ (mul_nonneg (Nat.cast_nonneg _) hs.le) hks
      linarith
    · exact hmap.trans hks
  have hseg : multiLen gd ((overlapCore gd along p2l shortL longL).segments)
      ≤ lineLen gd ((overlapCore gd along p2l shortL longL).sampled) := by
    have hrepr : (overlapCore gd along p2l shortL longL).segments
        = hystLoop OVERLAP_THRESHOLD_METERS (OVERLAP_THRESHOLD_METERS + 5)
            (fun c => p2l c longL)
            ((overlapCore gd along p2l shortL longL).sampled) [] false := rfl
    rw [hrepr]
    have h := hystLoop_multiLen_le gd hnn OVERLAP_THRESHOLD_METERS
      (OVERLAP_THRESHOLD_METERS + 5) (fun c => p2l c longL)
      ((overlapCore gd along p2l shortL longL).sampled) [] false
      (fun _ => rfl)
    simpa using h
  have hov : (overlapCore gd along p2l shortL longL).overlapKm
      = if (overlapCore gd along p2l shortL longL).segments = [] then none
        else some
          (multiLen gd ((overlapCore gd along p2l shortL longL).segments)) :=
    rfl
  rw [hov] at hv
  split at hv
  · exact absurd hv (by simp)
  · have hveq := Option.some.inj hv
    rw [← hveq]
    exact hseg.trans hsam

/-- Every list the classification loop ever emits passed a
`current.length > 1` check, whatever the starting state. -/
theorem hystLoop_mem_two_le (enterThresh exitThresh : ℚ) (distF : α → ℚ) :
    ∀ (xs current : List α) (inside : Bool) (seg : List α),
      seg ∈ hystLoop enterThresh exitThresh distF xs current inside →
        2 ≤ seg.length := by
  intro xs
  induction xs with
  | nil =>
      intro current inside seg h
      simp only [hystLoop] at h
      split at h
      · next hlen => rw [List.mem_singleton.mp h]; exact hlen
      · exact absurd h (List.not_mem_nil seg)
  | cons c rest ih =>
      intro current inside seg h
      simp only [hystLoop] at h
      split at h
      · split at h
        · exact ih _ _ seg h
        · exact ih _ _ seg h
      · split at h
        · exact ih _ _ seg h
        · rcases List.mem_append.mp h with hl | hr
          · split at hl
            · next hlen => rw [List.mem_singleton.mp hl]; exact hlen
            · exact absurd hl (List.not_mem_nil seg)
          · exact ih _ _ seg hr

/-- C6: every emitted overlap segment holds at least 2 samples — a 1-sample
open segment is discarded both on the INSIDE→OUTSIDE transition and at end
of stream — and the distance sequence `[30, 5, 30]` (enter = 20,
exit = 25) yields zero emitted segments. -/
theorem segments_have_two_samples :
    (∀ (α : Type) (enterThresh exitThresh : ℚ) (distF : α → ℚ)
        (xs seg : List α),
        seg ∈ hystLoop enterThresh exitThresh distF xs [] false →
          2 ≤ seg.length) ∧
      hystLoop 20 25 (id : ℚ → ℚ) [30, 5, 30] [] false = [] :=
  ⟨fun _ enterThresh exitThresh distF xs seg h =>
      hystLoop_mem_two_le enterThresh exitThresh distF xs [] false seg h,
    rfl⟩

/-- C6 witness: a concrete emitted segment, `[5, 5]` from the distance
stream `[5, 5]`, indeed has at least 2 samples. -/
theorem segments_have_two_samples_witness :
    ([(5 : ℚ), 5] ∈ hystLoop 20 25 (id : ℚ → ℚ) [5, 5] [] false) ∧
      2 ≤ ([(5 : ℚ), 5]).length :=
  ⟨by decide,
    segments_have_two_samples.1 ℚ 20 25 id [5, 5] [5, 5] (by decide)⟩

/-- C9: when classification produces no segments the run completes with an
empty segment list, a zero total segment length, and no overlap statistics
(`overlapKm = none`, the stats block of src/app.js:386-405 being skipped) —
a normal outcome; no error value exists anywhere on this path (the
embedding of `findAndDrawOverlap` is a total function). -/
theorem no_overlap_is_normal (gd : Coord → Coord → ℚ)
    (along : List Coord → ℚ → Coord) (p2l : Coord → List Coord → ℚ)
    (t1 t2 : List GeoPoint)
    (h : (findAndDrawOverlap gd along p2l t1 t2).segments = []) :
    (findAndDrawOverlap gd along p2l t1 t2).overlapKm = none ∧
      multiLen gd (findAndDrawOverlap gd along p2l t1 t2).segments = 0 := by
  constructor
  · have hov : (findAndDrawOverlap gd along p2l t1 t2).overlapKm
        = if (findAndDrawOverlap gd along p2l t1 t2).segments = [] then none
          else some
            (multiLen gd (findAndDrawOverlap gd along p2l t1 t2).segments) :=
      rfl
    rw [hov, if_pos h]
  · rw [h]; rfl

/-- C9 witness: two valid tracks everywhere farther than the thresholds
(distance oracle constantly 1000 m) produce no segments, and the run
reports no stats and zero total segment length. -/
theorem no_overlap_is_normal_witness :
    (findAndDrawOverlap gdAxis alongX p2lFar wShort wLong).segments = [] ∧
      ((findAndDrawOverlap gdAxis alongX p2lFar wShort wLong).overlapKm
          = none ∧
        multiLen gdAxis
          (findAndDrawOverlap gdAxis alongX p2lFar wShort wLong).segments
          = 0) :=
  ⟨by norm_num [findAndDrawOverlap, overlapCore, toLS, wShort, wLong,
      lineLen, gdAxis, alongX, sampleOffsets, stepKm, RESAMPLE_STEP_METERS,
      Int.toNat_ofNat, offsetsUpTo, List.getLast?, hystLoop,
      OVERLAP_THRESHOLD_METERS, p2lFar],
    no_overlap_is_normal gdAxis alongX p2lFar wShort wLong
      (by norm_num [findAndDrawOverlap, overlapCore, toLS, wShort, wLong,
        lineLen, gdAxis, alongX, sampleOffsets, stepKm,
        RESAMPLE_STEP_METERS, Int.toNat_ofNat, offsetsUpTo, List.getLast?,
        hystLoop, OVERLAP_THRESHOLD_METERS, p2lFar])⟩

/-- The taxicab stand-in metric is nonnegative. -/
theorem gdAxis_nonneg : ∀ a b : Coord, 0 ≤ gdAxis a b := by
  intro a b
  unfold gdAxis
  split <;> split <;> linarith

/-- The horizontal arc-walk stand-in is 1-Lipschitz for the taxicab
stand-in metric. -/
theorem alongX_lip (line : List Coord) (d1 d2 : ℚ) (_h0 : 0 ≤ d1)
    (h12 : d1 ≤ d2) :
    gdAxis (alongX line d1) (alongX line d2) ≤ d2 - d1 := by
  unfold gdAxis alongX
  rw [if_pos
    (by linarith : (line.headD (0, 0)).1 + d1 ≤ (line.headD (0, 0)).1 + d2)]
  norm_num

/-- C3: any overlap length the comparison reports is at most the minimum of
the two tracks' total lengths (so in particular at most that minimum plus
any nonnegative numerical tolerance).  The hypotheses state the geodesic
facts about the external Turf primitives the bound rests on: a nonnegative
metric, arc-length 1-Lipschitz continuity of `turf.along`, and that
`turf.along` at the full length is the literal last point. -/
theorem overlap_bounded_by_min (gd : Coord → Coord → ℚ)
    (along : List Coord → ℚ → Coord) (p2l : Coord → List Coord → ℚ)
    (t1 t2 : List GeoPoint)
    (hnn : ∀ a b, 0 ≤ gd a b)
    (hlip : ∀ (line : List Coord) (d1 d2 : ℚ), 0 ≤ d1 → d1 ≤ d2 →
      gd (along line d1) (along line d2) ≤ d2 - d1)
    (hlast : ∀ line : List Coord, line = toLS t1 ∨ line = toLS t2 →
      along line (lineLen gd line) = line.getLastD (0, 0)) :
    ∀ v, (findAndDrawOverlap gd along p2l t1 t2).overlapKm = some v →
      v ≤ min (lineLen gd (toLS t1)) (lineLen gd (toLS t2)) := by
  intro v hv
  by_cases hc : lineLen gd (toLS t1) ≤ lineLen gd (toLS t2)
  · have he : findAndDrawOverlap gd along p2l t1 t2
        = overlapCore gd along p2l (toLS t1) (toLS t2) := by
      simp only [findAndDrawOverlap]
      rw [if_pos hc, if_pos hc]
    rw [he] at hv
    rw [min_eq_left hc]
    exact overlapCore_overlap_le gd along p2l (toLS t1) (toLS t2) hnn
      (hlip (toLS t1)) (hlast (toLS t1) (Or.inl rfl)) v hv
  · push_neg at hc
    have he : findAndDrawOverlap gd along p2l t1 t2
        = overlapCore gd along p2l (toLS t2) (toLS t1) := by
      simp only [findAndDrawOverlap]
      rw [if_neg (not_le.mpr hc), if_neg (not_le.mpr hc)]
    rw [he] at hv
    rw [min_eq_right hc.le]
    exact overlapCore_overlap_le gd along p2l (toLS t2) (toLS t1) hnn
      (hlip (toLS t2)) (hlast (toLS t2) (Or.inr rfl)) v hv

/-- C3 witness: with the 0.02 km and 0.05 km tracks and a distance oracle
keeping every sample inside, the reported overlap is 0.02 km, which is
indeed at most the minimum of the two lengths. -/
theorem overlap_bounded_by_min_witness :
    (findAndDrawOverlap gdAxis alongX p2lZero wShort wLong).overlapKm
        = some (2/100) ∧
      (2 : ℚ)/100
        ≤ min (lineLen gdAxis (toLS wShort)) (lineLen gdAxis (toLS wLong)) :=
  ⟨by norm_num [findAndDrawOverlap, overlapCore, toLS, wShort, wLong,
      lineLen, gdAxis, alongX, sampleOffsets, stepKm, RESAMPLE_STEP_METERS,
      Int.toNat_ofNat, offsetsUpTo, List.getLast?, hystLoop,
      OVERLAP_THRESHOLD_METERS, p2lZero, multiLen],
    overlap_bounded_by_min gdAxis alongX p2lZero wShort wLong gdAxis_nonneg
      alongX_lip
      (by rintro line (rfl | rfl) <;>
        norm_num [alongX, toLS, wShort, wLong, lineLen, gdAxis,
          List.getLastD])
      (2/100)
      (by norm_num [findAndDrawOverlap, overlapCore, toLS, wShort, wLong,
        lineLen, gdAxis, alongX, sampleOffsets, stepKm,
        RESAMPLE_STEP_METERS, Int.toNat_ofNat, offsetsUpTo, List.getLast?,
        hystLoop, OVERLAP_THRESHOLD_METERS, p2lZero, multiLen])⟩

end GpxCompare
